import Mathlib

/-!
Verification of the starlight `convert` package (conv.go): a shallow
embedding of the value-conversion bridge between Go values and starlark
values, together with theorems about its conversion and function-wrapping
behavior.

Go values reaching the bridge through `interface{}` are modelled by the
inductive type `GoVal`; starlark values by `SValue`.  Machine integers are
modelled as `Int`/`Nat` carrying their declared width, with the width
bounds stated as explicit hypotheses where they matter.  Go computations
that can fail are modelled by explicit result types: `ERes` for a
`(T, error)` pair that can also panic, `PRes` for an infallible result
that can still panic.
-/

namespace Starlight

/-- Signed integer widths of Go; `i` is the platform `int`, 64-bit here. -/
inductive IntW
| i
| i8
| i16
| i32
| i64
deriving DecidableEq, Repr

/-- Unsigned integer widths of Go; `u` is the platform `uint`, 64-bit here. -/
inductive UintW
| u
| u8
| u16
| u32
| u64
deriving DecidableEq, Repr

/-- Go floating-point widths. -/
inductive FloatW
| f32
| f64
deriving DecidableEq, Repr

/-- The `reflect.Kind` values the conversion code inspects. -/
inductive Kind
| kbool
| kint
| kint8
| kint16
| kint32
| kint64
| kuint
| kuint8
| kuint16
| kuint32
| kuint64
| kfloat32
| kfloat64
| kstring
| kptr
| kiface
| kfunc
| kmap
| kslice
| karray
| kstruct
| kinvalid
deriving DecidableEq, Repr

mutual
/-- A Go value as the bridge sees it through `interface{}`.  Numeric
constructors carry the declared width and the mathematical value; `vptr`
is one level of pointer indirection; `vfunc` is a function value (the
call behavior is supplied separately to `Invoke`, since the handle itself
is only classified and named by the conversion code); `vsval` is an
interface value that already holds a starlark value; `vgoerr` is an
interface value holding a Go `error` (nil or a message). -/
inductive GoVal
| vbool (b : Bool)
| vint (w : IntW) (n : Int)
| vuint (w : UintW) (n : Nat)
| vfloat (w : FloatW) (q : ℚ)
| vstr (s : String)
| vptr (g : GoVal)
| vfunc (id : Nat)
| vmap (entries : List (GoVal × GoVal))
| vslice (xs : List GoVal)
| varray (xs : List GoVal)
| vstruct (fields : List (String × GoVal))
| vsval (v : SValue)
| vgoerr (m : Option String)

/-- A starlark value.  `sint` is starlark's arbitrary-precision integer
(`starlark.Int`); `sdict` keeps entries in insertion order; `sbuiltin` is
the handle `MakeStarFn` produces; `sstruct` is the starlight Struct,
an opaque handle carrying the original Go value. -/
inductive SValue
| sbool (b : Bool)
| sint (n : Int)
| sfloat (q : ℚ)
| sstr (s : String)
| slist (xs : List SValue)
| stuple (xs : List SValue)
| sdict (entries : List (SValue × SValue))
| sset (xs : List SValue)
| snone
| sbuiltin (name : String) (id : Nat)
| sstruct (g : GoVal)
end

/-- Outcome of a Go computation returning `(T, error)`: a value, a non-nil
error, or a runtime panic. -/
inductive ERes (α : Type)
| ok (a : α)
| err (msg : String)
| panic (msg : String)
deriving Repr

/-- Outcome of a Go computation with no error result: a value or a panic. -/
inductive PRes (α : Type)
| ok (a : α)
| panic (msg : String)
deriving Repr

/-- Lift an infallible-but-panicking result into the error-carrying form. -/
def PRes.toE {α : Type} : PRes α → ERes α
| .ok a => .ok a
| .panic m => .panic m

/-- Map over a `PRes`. -/
def PRes.map {α β : Type} (f : α → β) : PRes α → PRes β
| .ok a => .ok (f a)
| .panic m => .panic m

/-- Whether a `PRes` carries a value. -/
def PRes.isOk {α : Type} : PRes α → Bool
| .ok _ => true
| .panic _ => false

/-- The kind tag of each signed width. -/
def IntW.kind : IntW → Kind
| .i => .kint
| .i8 => .kint8
| .i16 => .kint16
| .i32 => .kint32
| .i64 => .kint64

/-- The kind tag of each unsigned width. -/
def UintW.kind : UintW → Kind
| .u => .kuint
| .u8 => .kuint8
| .u16 => .kuint16
| .u32 => .kuint32
| .u64 => .kuint64

/-- The kind tag of each float width. -/
def FloatW.kind : FloatW → Kind
| .f32 => .kfloat32
| .f64 => .kfloat64

/-- Bit size of a signed width. -/
def IntW.bits : IntW → Nat
| .i => 64
| .i8 => 8
| .i16 => 16
| .i32 => 32
| .i64 => 64

/-- Bit size of an unsigned width. -/
def UintW.bits : UintW → Nat
| .u => 64
| .u8 => 8
| .u16 => 16
| .u32 => 32
| .u64 => 64

/-- reflect.ValueOf(v).Kind().  A concrete starlark value held in an
interface has its own structural kind; that re-classification is outside
the paths the claims exercise and is modelled as unclassified, like a Go
error value (`reflect.ValueOf` of a nil interface is the invalid Value). -/
def kindOf : GoVal → Kind
| .vbool _ => .kbool
| .vint w _ => w.kind
| .vuint w _ => w.kind
| .vfloat w _ => w.kind
| .vstr _ => .kstring
| .vptr _ => .kptr
| .vfunc _ => .kfunc
| .vmap _ => .kmap
| .vslice _ => .kslice
| .varray _ => .karray
| .vstruct _ => .kstruct
| .vsval _ => .kinvalid
| .vgoerr _ => .kinvalid

/-- Printable name of a kind, as reflect.Kind.String renders it. -/
def Kind.name : Kind → String
| .kbool => "bool"
| .kint => "int"
| .kint8 => "int8"
| .kint16 => "int16"
| .kint32 => "int32"
| .kint64 => "int64"
| .kuint => "uint"
| .kuint8 => "uint8"
| .kuint16 => "uint16"
| .kuint32 => "uint32"
| .kuint64 => "uint64"
| .kfloat32 => "float32"
| .kfloat64 => "float64"
| .kstring => "string"
| .kptr => "ptr"
| .kiface => "interface"
| .kfunc => "func"
| .kmap => "map"
| .kslice => "slice"
| .karray => "array"
| .kstruct => "struct"
| .kinvalid => "invalid"

/-- Kind-level rendering of a Go type name, standing in for the `%T`
format verb (which prints the concrete Go type). -/
def typeName : GoVal → String
| .vptr g => "*" ++ typeName g
| .vsval _ => "starlark.Value"
| .vgoerr _ => "error"
| g => (kindOf g).name

/-- reflect.Value.Elem at its one guarded use site (only reached when the
kind is Ptr or Interface). -/
def elemOf : GoVal → GoVal
| .vptr g => g
| g => g

/-- reflect.Value.Bool: panics unless the kind is Bool. -/
def valBool : GoVal → PRes Bool
| .vbool b => .ok b
| g => .panic ("reflect: call of reflect.Value.Bool on " ++ (kindOf g).name ++ " Value")

/-- reflect.Value.Int: panics unless the kind is a signed integer. -/
def valInt : GoVal → PRes Int
| .vint _ n => .ok n
| g => .panic ("reflect: call of reflect.Value.Int on " ++ (kindOf g).name ++ " Value")

/-- reflect.Value.Uint: panics unless the kind is an unsigned integer. -/
def valUint : GoVal → PRes Nat
| .vuint _ n => .ok n
| g => .panic ("reflect: call of reflect.Value.Uint on " ++ (kindOf g).name ++ " Value")

/-- reflect.Value.Float: panics unless the kind is a float. -/
def valFloat : GoVal → PRes ℚ
| .vfloat _ q => .ok q
| g => .panic ("reflect: call of reflect.Value.Float on " ++ (kindOf g).name ++ " Value")

/-- reflect.Value.String: unlike the other getters it never panics; on a
non-string kind it returns a placeholder rendering of the value. -/
def valString : GoVal → String
| .vstr s => s
| g => "<" ++ typeName g ++ " Value>"

/-- The Go conversion int(x) for x : int64 on a 64-bit platform, written
as an explicit two's-complement reduction modulo 2^64 (the identity for
in-range inputs). -/
def intCast (n : Int) : Int := (n + 2 ^ 63) % 2 ^ 64 - 2 ^ 63

/-- The Go conversion uint(x) for x : uint64 on a 64-bit platform. -/
def uintCast (n : Nat) : Nat := n % 2 ^ 64

/-- starlark.MakeInt: the runtime integer is arbitrary-precision, so the
constructors differ only in their input type. -/
def MakeInt (i : Int) : SValue := .sint i

/-- starlark.MakeInt64. -/
def MakeInt64 (i : Int) : SValue := .sint i

/-- starlark.MakeUint. -/
def MakeUint (n : Nat) : SValue := .sint n

/-- starlark.MakeUint64. -/
def MakeUint64 (n : Nat) : SValue := .sint n

/-- The type-assertion v.(starlark.Value) at the top of ToValue. -/
def asStarlark : GoVal → Option SValue
| .vsval v => some v
| _ => none

mutual
/-- Structural equality on Go values, used below for starlark key
identity in the container models. -/
def GoVal.beq : GoVal → GoVal → Bool
| .vbool a, .vbool b => a == b
| .vint w n, .vint w2 n2 => w == w2 && n == n2
| .vuint w n, .vuint w2 n2 => w == w2 && n == n2
| .vfloat w q, .vfloat w2 q2 => w == w2 && q == q2
| .vstr a, .vstr b => a == b
| .vptr a, .vptr b => GoVal.beq a b
| .vfunc a, .vfunc b => a == b
| .vmap a, .vmap b => beqPairsG a b
| .vslice a, .vslice b => beqListG a b
| .varray a, .varray b => beqListG a b
| .vstruct a, .vstruct b => beqFieldsG a b
| .vsval a, .vsval b => SValue.beq a b
| .vgoerr a, .vgoerr b => a == b
| _, _ => false

/-- Structural equality on starlark values. -/
def SValue.beq : SValue → SValue → Bool
| .sbool a, .sbool b => a == b
| .sint a, .sint b => a == b
| .sfloat a, .sfloat b => a == b
| .sstr a, .sstr b => a == b
| .slist a, .slist b => beqListS a b
| .stuple a, .stuple b => beqListS a b
| .sdict a, .sdict b => beqPairsS a b
| .sset a, .sset b => beqListS a b
| .snone, .snone => true
| .sbuiltin n i, .sbuiltin n2 i2 => n == n2 && i == i2
| .sstruct a, .sstruct b => GoVal.beq a b
| _, _ => false

/-- Pointwise equality of Go value lists. -/
def beqListG : List GoVal → List GoVal → Bool
| [], [] => true
| a :: as_, b :: bs => GoVal.beq a b && beqListG as_ bs
| _, _ => false

/-- Pointwise equality of Go entry lists. -/
def beqPairsG : List (GoVal × GoVal) → List (GoVal × GoVal) → Bool
| [], [] => true
| (k, v) :: as_, (k2, v2) :: bs => GoVal.beq k k2 && GoVal.beq v v2 && beqPairsG as_ bs
| _, _ => false

/-- Pointwise equality of Go struct field lists. -/
def beqFieldsG : List (String × GoVal) → List (String × GoVal) → Bool
| [], [] => true
| (k, v) :: as_, (k2, v2) :: bs => k == k2 && GoVal.beq v v2 && beqFieldsG as_ bs
| _, _ => false

/-- Pointwise equality of starlark value lists. -/
def beqListS : List SValue → List SValue → Bool
| [], [] => true
| a :: as_, b :: bs => SValue.beq a b && beqListS as_ bs
| _, _ => false

/-- Pointwise equality of starlark entry lists. -/
def beqPairsS : List (SValue × SValue) → List (SValue × SValue) → Bool
| [], [] => true
| (k, v) :: as_, (k2, v2) :: bs => SValue.beq k k2 && SValue.beq v v2 && beqPairsS as_ bs
| _, _ => false
end

/-- Modelled from the spec: starlark.Dict.SetKey, whose source lives in the
starlark runtime outside this repository — a mapping with unique keys and
insertion order preserved, where a later duplicate key overwrites the
earlier entry in place. -/
def dictSetKey (es : List (SValue × SValue)) (k v : SValue) : List (SValue × SValue) :=
  if es.any (fun e => SValue.beq e.1 k) then
    es.map (fun e => if SValue.beq e.1 k then (e.1, v) else e)
  else es ++ [(k, v)]

/-- Modelled from the spec: the Record Projector's Project operation
(starlight's NewStruct, whose source is outside src/) — the record is an
opaque handle carrying the original native value. -/
def NewStruct (v : GoVal) : SValue := .sstruct v

/-- MakeStarFn wrapper creation (conv.go 279-283): panics unless the Go
value is a function.  The produced handle keeps the registration name and
the function identity; the installed call behavior is modelled by
`Invoke` below. -/
def MakeStarFn (name : String) (gofn : GoVal) : PRes SValue :=
  match gofn with
  | .vfunc id => .ok (.sbuiltin name id)
  | _ => .panic "fn is not a function"

mutual
/-- ToValue (conv.go 24-61): a starlark value passes through unchanged;
otherwise the kind is classified — for a pointer or interface kind the
classification uses the pointee's kind, but the accessors below are still
applied to the un-dereferenced value, exactly as in the source — and the
value is dispatched on that kind. -/
def ToValue (v : GoVal) : ERes SValue :=
  match asStarlark v with
  | some val => .ok val
  | none =>
    match (if kindOf v = .kptr ∨ kindOf v = .kiface then kindOf (elemOf v) else kindOf v) with
    | .kbool => ((valBool v).map SValue.sbool).toE
    | .kint => ((valInt v).map (fun n => MakeInt (intCast n))).toE
    | .kint8 => ((valInt v).map (fun n => MakeInt (intCast n))).toE
    | .kint16 => ((valInt v).map (fun n => MakeInt (intCast n))).toE
    | .kint32 => ((valInt v).map (fun n => MakeInt (intCast n))).toE
    | .kint64 => ((valInt v).map MakeInt64).toE
    | .kuint => ((valUint v).map (fun n => MakeUint (uintCast n))).toE
    | .kuint8 => ((valUint v).map (fun n => MakeUint (uintCast n))).toE
    | .kuint16 => ((valUint v).map (fun n => MakeUint (uintCast n))).toE
    | .kuint32 => ((valUint v).map (fun n => MakeUint (uintCast n))).toE
    | .kuint64 => ((valUint v).map MakeUint64).toE
    | .kfloat32 => ((valFloat v).map SValue.sfloat).toE
    | .kfloat64 => ((valFloat v).map SValue.sfloat).toE
    | .kfunc => (MakeStarFn "fn" v).toE
    | .kmap => MakeDict v
    | .kstring => .ok (.sstr (valString v))
    | .kslice => MakeList v
    | .karray => MakeList v
    | .kstruct => .ok (NewStruct v)
    | _ => .err ("type " ++ typeName v ++ " is not a supported starlark type")

/-- The loop of makeVals (conv.go 156-163): encode each element, the
first failure aborts. -/
def makeValsL : List GoVal → ERes (List SValue)
| [] => .ok []
| x :: xs =>
  match ToValue x with
  | .ok v =>
    match makeValsL xs with
    | .ok vs => .ok (v :: vs)
    | .err m => .err m
    | .panic m => .panic m
  | .err m => .err m
  | .panic m => .panic m

/-- makeVals (conv.go 151-165): panics unless the value is a slice or an
array, then encodes every element. -/
def makeVals : GoVal → ERes (List SValue)
| .vslice xs => makeValsL xs
| .varray xs => makeValsL xs
| v => .panic ("value should be slice or array but was " ++ (kindOf v).name ++ ", " ++ typeName v)

/-- MakeList (conv.go 143-149). -/
def MakeList (v : GoVal) : ERes SValue :=
  match makeVals v with
  | .ok vs => .ok (.slist vs)
  | .err m => .err m
  | .panic m => .panic m

/-- MakeTuple (conv.go 133-139). -/
def MakeTuple (v : GoVal) : ERes SValue :=
  match makeVals v with
  | .ok vs => .ok (.stuple vs)
  | .err m => .err m
  | .panic m => .panic m

/-- The loop of MakeDict (conv.go 188-199): encode each key and value,
insert with SetKey; the first failure aborts. -/
def makeDictL : List (GoVal × GoVal) → List (SValue × SValue) → ERes (List (SValue × SValue))
| [], acc => .ok acc
| (k, v) :: es, acc =>
  match ToValue k with
  | .ok ks =>
    match ToValue v with
    | .ok vs => makeDictL es (dictSetKey acc ks vs)
    | .err m => .err m
    | .panic m => .panic m
  | .err m => .err m
  | .panic m => .panic m

/-- MakeDict (conv.go 182-201): panics unless the value is a map. -/
def MakeDict : GoVal → ERes SValue
| .vmap es =>
  match makeDictL es [] with
  | .ok ds => .ok (.sdict ds)
  | .err m => .err m
  | .panic m => .panic m
| v => .panic ("can't make map of " ++ typeName v)
end

mutual
/-- FromValue (conv.go 64-96): the mirror dispatch over the starlark value
variants.  A runtime integer becomes int64 when it fits, else uint64 when
it fits, else the conversion panics; None and Builtin fall to the default
case and pass through as interface values holding the starlark value. -/
def FromValue : SValue → PRes GoVal
| .sbool b => .ok (.vbool b)
| .sint n =>
  if -(2 ^ 63) ≤ n ∧ n < 2 ^ 63 then .ok (.vint .i64 n)
  else if 0 ≤ n ∧ n < 2 ^ 64 then .ok (.vuint .u64 n.toNat)
  else .panic ("can't convert starlark.Int " ++ toString n ++ " to int")
| .sfloat q => .ok (.vfloat .f64 q)
| .sstr s => .ok (.vstr s)
| .slist xs => (FromValueL xs).map .vslice
| .stuple xs => (FromValueL xs).map .vslice
| .sdict es => (FromDictL es).map .vmap
| .sset xs => (FromSetL xs).map .vmap
| .snone => .ok (.vsval .snone)
| .sbuiltin name id => .ok (.vsval (.sbuiltin name id))
| .sstruct g => .ok g

/-- The shared element loop of FromList (conv.go 168-178) and FromTuple
(conv.go 123-129): decode every element in order. -/
def FromValueL : List SValue → PRes (List GoVal)
| [] => .ok []
| x :: xs =>
  match FromValue x with
  | .ok g => (FromValueL xs).map (g :: ·)
  | .panic m => .panic m

/-- The loop of FromDict (conv.go 206-211): the key is decoded with
FromValue, the value is stored as the raw starlark value returned by
m.Get, without decoding. -/
def FromDictL : List (SValue × SValue) → PRes (List (GoVal × GoVal))
| [] => .ok []
| (k, v) :: es =>
  match FromValue k with
  | .ok kg => (FromDictL es).map ((kg, GoVal.vsval v) :: ·)
  | .panic m => .panic m

/-- The loop of FromSet (conv.go 234-241): each member decoded, mapped to
the presence flag true. -/
def FromSetL : List SValue → PRes (List (GoVal × GoVal))
| [] => .ok []
| x :: xs =>
  match FromValue x with
  | .ok g => (FromSetL xs).map ((g, GoVal.vbool true) :: ·)
  | .panic m => .panic m
end

/-- FromTuple (conv.go 123-129). -/
def FromTuple (t : List SValue) : PRes (List GoVal) := FromValueL t

/-- FromList (conv.go 168-178). -/
def FromList (l : List SValue) : PRes (List GoVal) := FromValueL l

/-- FromDict (conv.go 204-213), as the produced Go map value. -/
def FromDict (es : List (SValue × SValue)) : PRes GoVal := (FromDictL es).map .vmap

/-- FromSet (conv.go 232-242), as the produced Go map value. -/
def FromSet (xs : List SValue) : PRes GoVal := (FromSetL xs).map .vmap

/-- Encode then decode: ToValue followed by FromValue. -/
def roundtrip (g : GoVal) : ERes GoVal :=
  match ToValue g with
  | .ok sv => (FromValue sv).toE
  | .err m => .err m
  | .panic m => .panic m

/-- Kwarg (conv.go 245-248): one decoded named argument. -/
structure Kwarg where
  name : String
  value : GoVal

/-- FromKwargs (conv.go 253-267): each incoming tuple is decoded with
FromTuple; a decoded tuple whose length is not 2 fails reporting the
length, one whose first element is not a Go string fails reporting the
type; the first failure returns the error alone (no partial list). -/
def FromKwargs : List (List SValue) → ERes (List Kwarg)
| [] => .ok []
| t :: ts =>
  match FromTuple t with
  | .panic m => .panic m
  | .ok tup =>
    match tup with
    | [kv, v] =>
      match kv with
      | .vstr s =>
        match FromKwargs ts with
        | .ok rest => .ok (⟨s, v⟩ :: rest)
        | .err m => .err m
        | .panic m => .panic m
      | kv => .err ("expected name of kwarg to be string, but was " ++ typeName kv)
    | tup => .err ("kwarg tuple should have 2 vals, has " ++ toString tup.length)

/-- The Go static types the bridge's argument coercion distinguishes
(reflect.Type at the granularity the call path inspects). -/
inductive GoType
| tbool
| tint (w : IntW)
| tuint (w : UintW)
| tfloat (w : FloatW)
| tstring
| tptr
| tfunc
| tmap
| tslice
| tarray
| tstruct
| tstarlark
| terrVal
deriving DecidableEq, Repr

/-- reflect.TypeOf at the granularity the coercion step compares. -/
def typeOf : GoVal → GoType
| .vbool _ => .tbool
| .vint w _ => .tint w
| .vuint w _ => .tuint w
| .vfloat w _ => .tfloat w
| .vstr _ => .tstring
| .vptr _ => .tptr
| .vfunc _ => .tfunc
| .vmap _ => .tmap
| .vslice _ => .tslice
| .varray _ => .tarray
| .vstruct _ => .tstruct
| .vsval _ => .tstarlark
| .vgoerr _ => .terrVal

/-- Two's-complement reduction of an integer to a signed width. -/
def wrapSigned (bits : Nat) (n : Int) : Int :=
  (n + 2 ^ (bits - 1)) % 2 ^ bits - 2 ^ (bits - 1)

/-- Reduction of an integer to an unsigned width. -/
def wrapUnsigned (bits : Nat) (n : Int) : Nat := (n % 2 ^ bits).toNat

/-- Modelled from the spec: reflect.Value.Convert for the representation
classes the bridge meets — a value whose dynamic type already equals the
target is kept, numeric representation classes convert with explicit
wrap-around to the target width, and an inconvertible pair is a fatal
(panicking) mismatch.  Float precision is not modelled; the payload is
carried through. -/
def convert (v : GoVal) (t : GoType) : PRes GoVal :=
  if typeOf v = t then .ok v else
  match v, t with
  | .vint _ n, .tint w => .ok (.vint w (wrapSigned w.bits n))
  | .vint _ n, .tuint w => .ok (.vuint w (wrapUnsigned w.bits n))
  | .vint _ n, .tfloat w => .ok (.vfloat w n)
  | .vuint _ n, .tint w => .ok (.vint w (wrapSigned w.bits n))
  | .vuint _ n, .tuint w => .ok (.vuint w (wrapUnsigned w.bits n))
  | .vuint _ n, .tfloat w => .ok (.vfloat w n)
  | .vfloat _ q, .tfloat w => .ok (.vfloat w q)
  | v, _ => .panic ("reflect.Value.Convert: cannot convert " ++ typeName v)

/-- The argument-coercion loop of the wrapped function (conv.go 291-299):
each decoded argument whose dynamic type differs from the declared
parameter type is converted to it; running past the declared parameter
list would be the reflect In index panic. -/
def coerceArgs : List GoVal → List GoType → PRes (List GoVal)
| [], _ => .ok []
| _ :: _, [] => .panic "reflect: Type.In index out of range"
| v :: vs, t :: ts =>
  match convert v t with
  | .ok cv => (coerceArgs vs ts).map (cv :: ·)
  | .panic m => .panic m

/-- One result slot of a reflected Go call: an ordinary value, or a slot
whose static type is error (value nil or a non-nil error message).  The
test last.Type() == errType in the source is the test for the errSlot
form. -/
inductive OutVal
| val (g : GoVal)
| errSlot (e : Option String)

/-- out[i].Interface() for a result slot. -/
def OutVal.iface : OutVal → GoVal
| .val g => g
| .errSlot e => .vgoerr e

/-- A reflected Go function as MakeStarFn sees it: the declared parameter
types (t.NumIn, t.In) and the call behavior (reflect.Value.Call). -/
structure GoFn where
  inTypes : List GoType
  call : List GoVal → List OutVal

/-- Invoke (conv.go 285-329): the closure MakeStarFn installs on the
builtin.  It validates the positional-argument count against the declared
arity, decodes the arguments with FromTuple, coerces each to its declared
parameter type, calls the function, strips a trailing error-typed result
slot (consuming its value as the call's error), and packs the remaining
results.  The returned pair is (starlark value, error); the value is an
Option so that a nil starlark.Value (reachable in the tuple branch) is
representable.  The kwargs parameter is accepted and never read, exactly
as in the source. -/
def Invoke (t : GoFn) (args : List SValue) (kwargs : List (List SValue)) :
    PRes (Option SValue × Option String) :=
  if args.length ≠ t.inTypes.length then
    .ok (some .snone, some ("expected " ++ toString t.inTypes.length ++ " args but got " ++ toString args.length))
  else
    match FromTuple args with
    | .panic m => .panic m
    | .ok vals =>
      match coerceArgs vals t.inTypes with
      | .panic m => .panic m
      | .ok rvs =>
        let out := t.call rvs
        if out.length = 0 then .ok (some .snone, none)
        else
          let e : Option String :=
            match out.getLast? with
            | some (.errSlot e) => e
            | _ => none
          let out1 :=
            match out.getLast? with
            | some (.errSlot _) => out.dropLast
            | _ => out
          match out1 with
          | [o] =>
            match ToValue o.iface with
            | .err m2 => .ok (some .snone, some m2)
            | .panic m => .panic m
            | .ok v => .ok (some v, e)
          | outs =>
            match MakeTuple (.vslice (outs.map OutVal.iface)) with
            | .panic m => .panic m
            | .ok tup => if e.isSome then .ok (some .snone, none) else .ok (some tup, e)
            | .err m2 => if e.isSome then .ok (some .snone, some m2) else .ok (none, e)

/-- A value is representable at a signed width. -/
def intFits (w : IntW) (n : Int) : Prop := -(2 ^ (w.bits - 1)) ≤ n ∧ n < 2 ^ (w.bits - 1)

/-- A value is representable at an unsigned width. -/
def uintFits (w : UintW) (n : Nat) : Prop := n < 2 ^ w.bits

/-- All elements of all tuples decode without the fatal integer-range
panic (the spec's FatalPrecondition for integers outside both 64-bit
representations). -/
def kwDecodable (ts : List (List SValue)) : Prop :=
  ∀ t ∈ ts, ∀ x ∈ t, (FromValue x).isOk = true

/-- The Named-Argument Decoder as the specification words it: walk the
tuples in order; a tuple whose length is not 2 fails with the shape error
reporting that length; a tuple whose first element does not decode to a
textual native value fails with the shape error reporting the type;
otherwise collect (name, decoded value) pairs in input order; the first
failure aborts the whole decode with no partial list. -/
def FromKwargsSpec : List (List SValue) → ERes (List Kwarg)
| [] => .ok []
| t :: ts =>
  match t with
  | [a, b] =>
    match FromValue a with
    | .panic m => .panic m
    | .ok ga =>
      match ga with
      | .vstr s =>
        match FromValue b with
        | .panic m => .panic m
        | .ok gb =>
          match FromKwargsSpec ts with
          | .ok rest => .ok (⟨s, gb⟩ :: rest)
          | .err m => .err m
          | .panic m => .panic m
      | ga => .err ("expected name of kwarg to be string, but was " ++ typeName ga)
  | t => .err ("kwarg tuple should have 2 vals, has " ++ toString t.length)

/-- A Go function func() (int, int, error) whose body returns (1, 2, a
non-nil error "boom"). -/
def twoValErrFn : GoFn :=
  ⟨[], fun _ => [.val (.vint .i 1), .val (.vint .i 2), .errSlot (some "boom")]⟩

/-- A Go function func() error whose body returns nil. -/
def errOnlyFn : GoFn := ⟨[], fun _ => [.errSlot none]⟩

/-- The Go map map[string]int with the single entry "a" to 1. -/
def dictA1 : GoVal := .vmap [(.vstr "a", .vint .i 1)]

/-- A Go function of declared arity 1 used for the arity-mismatch witness. -/
def oneArgFn : GoFn := ⟨[.tint .i], fun _ => []⟩

theorem intCast_id (n : Int) (h1 : -(2 ^ 63) ≤ n) (h2 : n < 2 ^ 63) : intCast n = n := by
  unfold intCast
  omega

theorem uintCast_id (n : Nat) (h : n < 2 ^ 64) : uintCast n = n := by
  unfold uintCast
  omega

theorem fromValue_sint_signed (n : Int) (h1 : -(2 ^ 63) ≤ n) (h2 : n < 2 ^ 63) :
    FromValue (.sint n) = .ok (.vint .i64 n) := by
  simp only [FromValue]
  rw [if_pos ⟨h1, h2⟩]

theorem fromValue_sint_unsigned (n : Int) (h1 : 2 ^ 63 ≤ n) (h2 : n < 2 ^ 64) :
    FromValue (.sint n) = .ok (.vuint .u64 n.toNat) := by
  simp only [FromValue]
  rw [if_neg (by omega), if_pos ⟨by omega, h2⟩]

theorem fromValue_sint_panic (n : Int) (h : n < -(2 ^ 63) ∨ 2 ^ 64 ≤ n) :
    FromValue (.sint n) = .panic ("can't convert starlark.Int " ++ toString n ++ " to int") := by
  simp only [FromValue]
  rw [if_neg (by omega), if_neg (by omega)]

theorem intFits_sub64 (w : IntW) (n : Int) (h : intFits w n) :
    -(2 ^ 63) ≤ n ∧ n < 2 ^ 63 := by
  cases w <;> simp only [intFits, IntW.bits] at h <;> norm_num at h ⊢ <;> omega

theorem uintFits_sub64 (w : UintW) (n : Nat) (h : uintFits w n) : n < 2 ^ 64 := by
  cases w <;> simp only [uintFits, UintW.bits] at h <;> norm_num at h ⊢ <;> omega

theorem toValue_vint_ok (w : IntW) (n : Int) (h : intFits w n) :
    ToValue (.vint w n) = .ok (.sint n) := by
  have hb := intFits_sub64 w n h
  have hc := intCast_id n hb.1 hb.2
  cases w <;>
    simp [ToValue, asStarlark, kindOf, IntW.kind, elemOf, valInt, PRes.map, PRes.toE,
      MakeInt, MakeInt64, hc]

theorem toValue_vuint_ok (w : UintW) (n : Nat) (h : uintFits w n) :
    ToValue (.vuint w n) = .ok (.sint n) := by
  have hc := uintCast_id n (uintFits_sub64 w n h)
  cases w <;>
    simp [ToValue, asStarlark, kindOf, UintW.kind, elemOf, valUint, PRes.map, PRes.toE,
      MakeUint, MakeUint64, hc]

/-- C3: for every supported scalar kind, decoding the encoding yields the
original value up to the documented normalization to 64 bits — bools and
strings return unchanged, floats return at width float64, signed integers
of every width return as the same value at width int64 (e.g. the 16-bit
signed -7 comes back as the 64-bit signed -7), and unsigned integers
return numerically unchanged, as int64 when the value fits the signed
64-bit representation (the decoder's documented signed-first choice),
otherwise as uint64. -/
theorem scalar_roundtrip_C3 :
    (∀ b : Bool, roundtrip (.vbool b) = .ok (.vbool b)) ∧
    (∀ (w : IntW) (n : Int), intFits w n → roundtrip (.vint w n) = .ok (.vint .i64 n)) ∧
    (∀ (w : UintW) (n : Nat), uintFits w n →
      ((n : Int) < 2 ^ 63 → roundtrip (.vuint w n) = .ok (.vint .i64 (n : Int))) ∧
      (2 ^ 63 ≤ (n : Int) → roundtrip (.vuint w n) = .ok (.vuint .u64 n))) ∧
    (∀ (w : FloatW) (q : ℚ), roundtrip (.vfloat w q) = .ok (.vfloat .f64 q)) ∧
    (∀ s : String, roundtrip (.vstr s) = .ok (.vstr s)) := by
  refine ⟨fun b => ?_, fun w n h => ?_, fun w n h => ⟨fun hb => ?_, fun hb => ?_⟩,
    fun w q => ?_, fun s => ?_⟩
  · cases b <;>
      simp [roundtrip, ToValue, asStarlark, kindOf, elemOf, valBool, PRes.map, PRes.toE, FromValue]
  · have hb := intFits_sub64 w n h
    unfold roundtrip
    rw [toValue_vint_ok w n h]
    show (FromValue (SValue.sint n)).toE = _
    rw [fromValue_sint_signed n hb.1 hb.2]
    rfl
  · unfold roundtrip
    rw [toValue_vuint_ok w n h]
    show (FromValue (SValue.sint (n : Int))).toE = _
    rw [fromValue_sint_signed (n : Int) (by omega) hb]
    rfl
  · have h64 := uintFits_sub64 w n h
    unfold roundtrip
    rw [toValue_vuint_ok w n h]
    show (FromValue (SValue.sint (n : Int))).toE = _
    rw [fromValue_sint_unsigned (n : Int) hb (by omega)]
    simp [PRes.toE]
  · cases w <;>
      simp [roundtrip, ToValue, asStarlark, kindOf, FloatW.kind, elemOf, valFloat, PRes.map,
        PRes.toE, FromValue]
  · simp [roundtrip, ToValue, asStarlark, kindOf, elemOf, valString, PRes.toE, FromValue]

/-- Witness for C3 at concrete scalars, including the spec's example of
the 16-bit signed -7 decoding to the 64-bit signed -7. -/
theorem scalar_roundtrip_C3_witness :
    intFits .i16 (-7) ∧ roundtrip (.vint .i16 (-7)) = .ok (.vint .i64 (-7)) ∧
    roundtrip (.vbool true) = .ok (.vbool true) ∧
    uintFits .u16 7 ∧ roundtrip (.vuint .u16 7) = .ok (.vint .i64 ((7 : Nat) : Int)) ∧
    roundtrip (.vstr "a") = .ok (.vstr "a") :=
  ⟨by norm_num [intFits, IntW.bits],
   scalar_roundtrip_C3.2.1 .i16 (-7) (by norm_num [intFits, IntW.bits]),
   scalar_roundtrip_C3.1 true,
   by norm_num [uintFits, UintW.bits],
   (scalar_roundtrip_C3.2.2.1 .u16 7 (by norm_num [uintFits, UintW.bits])).1 (by norm_num),
   scalar_roundtrip_C3.2.2.2.2 "a"⟩

/-- C6: encoding a native signed integer of any width yields the ToValue
integer built by MakeInt (widths below 64) or MakeInt64 (64-bit), and
encoding an unsigned integer yields the one built by MakeUint or
MakeUint64; in every case the runtime integer carries exactly the
original numeric value. -/
theorem encode_integer_widths_C6 :
    (∀ (w : IntW) (n : Int), w ≠ .i64 → intFits w n → ToValue (.vint w n) = .ok (MakeInt n)) ∧
    (∀ n : Int, intFits .i64 n → ToValue (.vint .i64 n) = .ok (MakeInt64 n)) ∧
    (∀ (w : UintW) (n : Nat), w ≠ .u64 → uintFits w n → ToValue (.vuint w n) = .ok (MakeUint n)) ∧
    (∀ n : Nat, uintFits .u64 n → ToValue (.vuint .u64 n) = .ok (MakeUint64 n)) ∧
    (∀ (w : IntW) (n : Int), intFits w n → ToValue (.vint w n) = .ok (.sint n)) ∧
    (∀ (w : UintW) (n : Nat), uintFits w n → ToValue (.vuint w n) = .ok (.sint n)) :=
  ⟨fun w n _ h => toValue_vint_ok w n h,
   fun n h => toValue_vint_ok .i64 n h,
   fun w n _ h => toValue_vuint_ok w n h,
   fun n h => toValue_vuint_ok .u64 n h,
   fun w n h => toValue_vint_ok w n h,
   fun w n h => toValue_vuint_ok w n h⟩

/-- Witness for C6 at concrete integers of several widths. -/
theorem encode_integer_widths_C6_witness :
    intFits .i8 (-5) ∧ ToValue (.vint .i8 (-5)) = .ok (MakeInt (-5)) ∧
    ToValue (.vint .i64 (-5)) = .ok (MakeInt64 (-5)) ∧
    uintFits .u32 9 ∧ ToValue (.vuint .u32 9) = .ok (MakeUint 9) ∧
    ToValue (.vuint .u64 9) = .ok (MakeUint64 9) :=
  ⟨by norm_num [intFits, IntW.bits],
   encode_integer_widths_C6.1 .i8 (-5) (by decide) (by norm_num [intFits, IntW.bits]),
   encode_integer_widths_C6.2.1 (-5) (by norm_num [intFits, IntW.bits]),
   by norm_num [uintFits, UintW.bits],
   encode_integer_widths_C6.2.2.1 .u32 9 (by decide) (by norm_num [uintFits, UintW.bits]),
   encode_integer_widths_C6.2.2.2.1 9 (by norm_num [uintFits, UintW.bits])⟩

/-- C7: decoding a runtime integer yields the 64-bit signed native value
when it fits, otherwise the 64-bit unsigned value when that fits, and
panics (a fatal, non-reported failure) when neither representation fits;
no narrower width is ever produced. -/
theorem decode_integer_C7 :
    (∀ n : Int, -(2 ^ 63) ≤ n → n < 2 ^ 63 → FromValue (.sint n) = .ok (.vint .i64 n)) ∧
    (∀ n : Int, 2 ^ 63 ≤ n → n < 2 ^ 64 → FromValue (.sint n) = .ok (.vuint .u64 n.toNat)) ∧
    (∀ n : Int, n < -(2 ^ 63) ∨ 2 ^ 64 ≤ n →
      FromValue (.sint n) = .panic ("can't convert starlark.Int " ++ toString n ++ " to int")) :=
  ⟨fromValue_sint_signed, fromValue_sint_unsigned, fromValue_sint_panic⟩

/-- Witness for C7 at a small integer, one above the signed range, and
one above the unsigned range. -/
theorem decode_integer_C7_witness :
    FromValue (.sint 5) = .ok (.vint .i64 5) ∧
    FromValue (.sint (2 ^ 63)) = .ok (.vuint .u64 ((2 ^ 63 : Int)).toNat) ∧
    FromValue (.sint (2 ^ 64)) =
      .panic ("can't convert starlark.Int " ++ toString (2 ^ 64 : Int) ++ " to int") :=
  ⟨decode_integer_C7.1 5 (by norm_num) (by norm_num),
   decode_integer_C7.2.1 (2 ^ 63) (by norm_num) (by norm_num),
   decode_integer_C7.2.2 (2 ^ 64) (by norm_num)⟩

/-- C5 (code bug): encoding a pointer to a supported scalar does not
succeed — classification uses the pointee's kind, but the integer
accessor is then applied to the un-dereferenced pointer value and
panics — while encoding the pointed-to value directly succeeds. -/
theorem encode_pointer_scalar_C5 :
    ToValue (.vptr (.vint .i 5)) = .panic "reflect: call of reflect.Value.Int on ptr Value" ∧
    ToValue (.vint .i 5) = .ok (.sint 5) :=
  ⟨by simp [ToValue, asStarlark, kindOf, IntW.kind, elemOf, valInt, PRes.map, PRes.toE, Kind.name],
   toValue_vint_ok .i 5 (by norm_num [intFits, IntW.bits])⟩

/-- C4 (code bug): decoding the Dict obtained by encoding the native map
with entry ("a", 1) yields a native map whose key has been decoded to the
Go string "a" but whose value is still the raw runtime integer held in an
interface, not the decoded native 64-bit signed 1. -/
theorem dict_values_not_decoded_C4 :
    roundtrip dictA1 = .ok (.vmap [(.vstr "a", .vsval (.sint 1))]) := by
  simp [dictA1, roundtrip, ToValue, asStarlark, kindOf, IntW.kind, elemOf, valInt, valString,
    PRes.map, PRes.toE, MakeInt, intCast, MakeDict, makeDictL, dictSetKey, FromValue, FromDictL,
    FromValueL]

/-- C1 (code bug): invoking a wrapped function that returns two non-error
values and a non-nil error yields (None, nil) — the tuple of encoded
results is discarded and the callable's error is replaced by MakeTuple's
nil error, because the source tests err where it returns err2. -/
theorem invoke_two_values_error_C1 :
    Invoke twoValErrFn [] [] = .ok (some .snone, none) := by
  simp [Invoke, twoValErrFn, FromTuple, FromValueL, coerceArgs, MakeTuple, makeVals, makeValsL,
    ToValue, asStarlark, kindOf, IntW.kind, elemOf, valInt, PRes.map, PRes.toE, MakeInt, intCast,
    OutVal.iface, List.getLast?, List.dropLast]

/-- C2 (code bug): invoking a wrapped function whose only declared result
is an error slot, with the body returning nil, yields the empty Tuple
rather than the None sentinel, because the zero-results check runs before
the error slot is stripped. -/
theorem invoke_error_only_C2 :
    Invoke errOnlyFn [] [] = .ok (some (.stuple []), none) := by
  simp [Invoke, errOnlyFn, FromTuple, FromValueL, coerceArgs, MakeTuple, makeVals, makeValsL,
    OutVal.iface, List.getLast?, List.dropLast]

/-- C8: invoking a wrapped function with a positional-argument count
different from the declared arity returns the arity error naming the
expected and actual counts, and the outcome is the same for every
function of that arity — no decoding, coercion or call takes place. -/
theorem invoke_arity_mismatch_C8 (t : GoFn) (args : List SValue)
    (kwargs : List (List SValue)) (h : args.length ≠ t.inTypes.length) :
    Invoke t args kwargs =
      .ok (some .snone,
        some ("expected " ++ toString t.inTypes.length ++ " args but got " ++ toString args.length)) ∧
    ∀ u : GoFn, u.inTypes.length = t.inTypes.length → Invoke u args kwargs = Invoke t args kwargs := by
  constructor
  · simp only [Invoke]
    rw [if_pos h]
  · intro u hu
    simp only [Invoke]
    rw [if_pos (by rw [hu]; exact h), if_pos h, hu]

/-- Witness for C8: a one-argument function invoked with no arguments. -/
theorem invoke_arity_mismatch_C8_witness :
    ([] : List SValue).length ≠ oneArgFn.inTypes.length ∧
    Invoke oneArgFn [] [] =
      .ok (some .snone,
        some ("expected " ++ toString oneArgFn.inTypes.length ++ " args but got " ++
          toString ([] : List SValue).length)) :=
  ⟨by decide, (invoke_arity_mismatch_C8 oneArgFn [] [] (by decide)).1⟩

/-- C10: the outcome of an invocation depends only on the positional
arguments — the named-argument sequence is accepted and never read, so
any two kwargs lists give identical results. -/
theorem invoke_ignores_kwargs_C10 (t : GoFn) (args : List SValue)
    (k1 k2 : List (List SValue)) : Invoke t args k1 = Invoke t args k2 := rfl

theorem fromValueL_ok_len (t : List SValue) (h : ∀ x ∈ t, (FromValue x).isOk = true) :
    ∃ gs, FromValueL t = .ok gs ∧ gs.length = t.length := by
  induction t with
  | nil => exact ⟨[], by simp [FromValueL], rfl⟩
  | cons a t ih =>
    have ha := h a (by simp)
    obtain ⟨ga, hga⟩ : ∃ g, FromValue a = .ok g := by
      cases hfa : FromValue a with
      | ok g => exact ⟨g, rfl⟩
      | panic m => rw [hfa] at ha; simp [PRes.isOk] at ha
    obtain ⟨gs, hgs, hlen⟩ := ih (fun x hx => h x (by simp [hx]))
    exact ⟨ga :: gs, by simp [FromValueL, hga, hgs, PRes.map], by simp [hlen]⟩

/-- C9: on every input whose elements decode without the fatal
integer-range panic, FromKwargs behaves exactly as the specification
words it — pairs in input order with decoded values on success, and an
atomic failure carrying the length-reporting or type-reporting shape
error of the first malformed tuple. -/
theorem fromKwargs_spec_C9 (ts : List (List SValue)) (h : kwDecodable ts) :
    FromKwargs ts = FromKwargsSpec ts := by
  induction ts with
  | nil => simp [FromKwargs, FromKwargsSpec]
  | cons t ts ih =>
    have hts : kwDecodable ts := fun u hu => h u (List.mem_cons_of_mem _ hu)
    have ht : ∀ x ∈ t, (FromValue x).isOk = true := h t (List.mem_cons_self _ _)
    have ihts := ih hts
    match t, ht with
    | [], ht => simp [FromKwargs, FromKwargsSpec, FromTuple, FromValueL]
    | [a], ht =>
      obtain ⟨ga, hga⟩ : ∃ g, FromValue a = .ok g := by
        have ha := ht a (by simp)
        cases hfa : FromValue a with
        | ok g => exact ⟨g, rfl⟩
        | panic m => rw [hfa] at ha; simp [PRes.isOk] at ha
      simp [FromKwargs, FromKwargsSpec, FromTuple, FromValueL, hga, PRes.map]
    | [a, b], ht =>
      obtain ⟨ga, hga⟩ : ∃ g, FromValue a = .ok g := by
        have ha := ht a (by simp)
        cases hfa : FromValue a with
        | ok g => exact ⟨g, rfl⟩
        | panic m => rw [hfa] at ha; simp [PRes.isOk] at ha
      obtain ⟨gb, hgb⟩ : ∃ g, FromValue b = .ok g := by
        have hb := ht b (by simp)
        cases hfb : FromValue b with
        | ok g => exact ⟨g, rfl⟩
        | panic m => rw [hfb] at hb; simp [PRes.isOk] at hb
      cases ga <;>
        simp [FromKwargs, FromKwargsSpec, FromTuple, FromValueL, hga, hgb, PRes.map, ihts]
    | a :: b :: c :: rest, ht =>
      obtain ⟨gs, hgs, hlen⟩ := fromValueL_ok_len (a :: b :: c :: rest) ht
      match gs, hlen with
      | g1 :: g2 :: g3 :: gr, hlen =>
        have hl : gr.length = rest.length := by simpa using hlen
        simp [FromKwargs, FromKwargsSpec, FromTuple, hgs, hl]

/-- Witness for C9 at the spec's well-formed two-entry example. -/
theorem fromKwargs_spec_C9_witness :
    kwDecodable [[SValue.sstr "x", SValue.sint 1], [SValue.sstr "y", SValue.sint 2]] ∧
    FromKwargs [[SValue.sstr "x", SValue.sint 1], [SValue.sstr "y", SValue.sint 2]] =
      FromKwargsSpec [[SValue.sstr "x", SValue.sint 1], [SValue.sstr "y", SValue.sint 2]] := by
  have hd : kwDecodable [[SValue.sstr "x", SValue.sint 1], [SValue.sstr "y", SValue.sint 2]] := by
    intro t ht x hx
    fin_cases ht <;> fin_cases hx <;>
      simp [FromValue, PRes.isOk]
  exact ⟨hd, fromKwargs_spec_C9 _ hd⟩

end Starlight
